import Mathlib

/-!
Verification development for `Dup_Remover.py`, a single-pass PCR-duplicate
remover for SAM-formatted alignment streams.

The Python source is shallowly embedded below.  Python exceptions are
modelled with `Except Unit` (an `Except.error ()` result means the original
code raises an uncaught exception at that point), Python `None` results are
modelled with `Option`, and machine integers are modelled with `Int`
(Python integers are unbounded, so no wrap-around is needed).
-/

namespace DupRemover

/-- Model of Python's `line.split("\x09")` on the character list:
splits on every tab, keeping empty fields (no collapsing). -/
def splitTabCore : List Char → List (List Char)
  | [] => [[]]
  | c :: cs =>
    if c = '\x09' then [] :: splitTabCore cs
    else
      match splitTabCore cs with
      | [] => [[c]]
      | h :: t => (c :: h) :: t

/-- Model of Python's `line.split("\x09")`. -/
def splitTab (s : String) : List String :=
  (splitTabCore s.data).map (fun cs => String.mk cs)

/-- Field `i` of a tab-separated line; `none` models Python's `IndexError`. -/
def samField (l : String) (i : Nat) : Option String :=
  (splitTab l).get? i

/-- Model of Python's `line.startswith('@')`. -/
def startsHeader (l : String) : Bool :=
  match l.data with
  | [] => false
  | c :: _ => c = '@'

/-- Whitespace characters stripped by Python's `int(...)` builtin. -/
def isSpaceChar (c : Char) : Bool :=
  c == ' ' || c == '\x09' || c == '\x0a' || c == '\x0b' || c == '\x0c' || c == '\x0d'

/-- Strip leading and trailing whitespace, as Python's `int(...)` does. -/
def pyStrip (l : List Char) : List Char :=
  ((l.dropWhile isSpaceChar).reverse.dropWhile isSpaceChar).reverse

/-- Decimal value of a digit string. -/
def digitsToNat (l : List Char) : Nat :=
  l.foldl (fun a c => 10 * a + (c.toNat - 48)) 0

def allDigits (l : List Char) : Bool :=
  l.all Char.isDigit

/-- Model of Python's `int(s)` on a decimal string: optional surrounding
whitespace, an optional sign, then at least one ASCII digit.  `none` models
a raised `ValueError`.  (Underscore digit separators and non-ASCII digits,
which Python also accepts, never occur in this program's inputs and are not
modelled.) -/
def pyIntCore : List Char → Option Int
  | [] => none
  | c :: cs =>
    if c = '-' then
      if cs = [] then none
      else if allDigits cs then some (-(digitsToNat cs : Int)) else none
    else if c = '+' then
      if cs = [] then none
      else if allDigits cs then some ((digitsToNat cs : Int)) else none
    else
      if allDigits (c :: cs) then some ((digitsToNat (c :: cs) : Int)) else none

def pyInt (s : String) : Option Int :=
  pyIntCore (pyStrip s.data)

/-- Bit `k` of the two's-complement representation of `f`.  For a
power-of-two mask `m = 2^k`, Python's `(f & m) == m` is exactly this test
(floor-division semantics match Python's `&` on negative ints as well). -/
def testBitI (f : Int) (k : Nat) : Bool :=
  (f.fdiv (2 ^ k)).emod 2 = 1

/-- `sam_info.soft_check` (source lines 88-96).  Returns the soft-clip
amount read from the front of the CIGAR string.  `none` models the uncaught
`IndexError` raised when the string has fewer than 2 characters (or fewer
than 3 when position 1 is not `S`/`s`), and the uncaught `ValueError`
raised when `int(...)` fails on the clip-length prefix. -/
def soft_check (align : String) : Option Int :=
  match align.data with
  | c0 :: c1 :: rest =>
    if c1 = 'S' ∨ c1 = 's' then pyInt (String.mk [c0])
    else
      match rest with
      | c2 :: _ =>
        if c2 = 'S' ∨ c2 = 's' then pyInt (String.mk [c0, c1])
        else some 0
      | [] => none
  | _ => none

/-- The position/descriptor kernel of `sam_info.start_pos` (source lines
111-116): given the parsed reference position `p` and the CIGAR field,
subtract the soft-clip amount when it is positive. -/
def start_pos_core (p : Int) (align : String) : Option Int :=
  (soft_check align).map (fun soft => if 0 < soft then p - soft else p)

/-- `sam_info.start_pos` (source lines 108-116): parse field 3, read field
5 and apply the soft-clip adjustment.  `error` models an uncaught
`IndexError`/`ValueError`. -/
def start_pos (l : String) : Except Unit Int :=
  match samField l 3 with
  | none => Except.error ()
  | some ps =>
    match pyInt ps with
    | none => Except.error ()
    | some p =>
      match samField l 5 with
      | none => Except.error ()
      | some align =>
        match start_pos_core p align with
        | none => Except.error ()
        | some v => Except.ok v

/-- The loop body of `sam_info.convert_phred` (source lines 102-106): the
`return` statement sits inside the `for` loop, so the function returns
after scoring only the first character; an empty quality string falls off
the loop and returns Python `None` (modelled as `none`). -/
def phred_first (qual : String) : Option Int :=
  match qual.data with
  | [] => none
  | c :: _ => some ((c.toNat : Int) - 33)

/-- `sam_info.convert_phred` (source lines 98-106): reads field 10 of the
line (`error` models the `IndexError` when the line has fewer than 11
fields) and scores it with `phred_first`. -/
def convert_phred (l : String) : Except Unit (Option Int) :=
  match samField l 10 with
  | none => Except.error ()
  | some q => Except.ok (phred_first q)

/-- The full-string Phred+33 aggregation described by the spec (sum of
`code_point(c) - 33` over every character), kept for comparison with the
source's `convert_phred`. -/
def sumPhred (qual : String) : Int :=
  qual.data.foldl (fun a c => a + ((c.toNat : Int) - 33)) 0

/-- `sam_info.bit_check` (source lines 138-152): parse field 1 as the flag,
return `(strand, umapNone)` where `strand` is `"-"` iff bit 16 is set and
`umapNone = true` models Python's `umap is None` (the flag has the
unmapped bit 4 or the secondary-alignment bit 256 set).  `error` models
the uncaught `IndexError`/`ValueError` on a missing or non-integer flag. -/
def bit_check (l : String) : Except Unit (String × Bool) :=
  match samField l 1 with
  | none => Except.error ()
  | some fs =>
    match pyInt fs with
    | none => Except.error ()
    | some flag =>
      Except.ok ((if testBitI flag 4 then ("-") else ("+")), (testBitI flag 2 || testBitI flag 8))

/-- The characters of the grep class `[ACGTN^-]` used by
`sam_info.barcode_get`. -/
def isBCchar (c : Char) : Bool :=
  c == 'A' || c == 'C' || c == 'G' || c == 'T' || c == 'N' || c == '^' || c == '-'

/-- Maximal runs of `isBCchar` characters, in order (accumulator holds the
current run reversed). -/
def bcRunsAux : List Char → List Char → List (List Char)
  | [], acc => if acc = [] then [] else [acc.reverse]
  | c :: cs, acc =>
    if isBCchar c then bcRunsAux cs (c :: acc)
    else if acc = [] then bcRunsAux cs []
    else acc.reverse :: bcRunsAux cs []

/-- Maximal runs of characters from `[ACGTN^-]` in a name.  `grep -o` with
the greedy pattern `[ACGTN^-]\x7bn,\x7d` prints exactly the maximal runs of
class characters whose length is at least `n`, one per output line. -/
def bcRuns (l : List Char) : List (List Char) :=
  bcRunsAux l []

/-- `grep -o` output lines joined by newline (the final `.strip("\x0a")` in
the source removes only the leading/trailing newlines). -/
def newlineJoin : List (List Char) → List Char
  | [] => []
  | [r] => r
  | r :: rs => r ++ '\x0a' :: newlineJoin rs

/-- `sam_info.barcode_get` (source lines 118-136).  The source shells out:
`cat sam | cut -f 1 | grep -v '^@' | sed -n '{COUNT}p' | grep -o '[ACGTN^-]\x7bID,\x7d'`,
i.e. it takes the name (field 0) of the `count`-th non-header line of the
file and extracts every maximal `[ACGTN^-]` run of length at least `idlen`.
When grep finds nothing it exits non-zero, `check_output` raises, the bare
`except` swallows the error and `BC` stays the empty string.  `names` is
the list of non-header-line name fields of the file being processed;
`count` is the 1-based global `COUNT` ordinal. -/
def barcode_get (names : List String) (count idlen : Nat) : String :=
  let name := (names.get? (count - 1)).getD ("")
  let runs := (bcRuns name.data).filter (fun r => idlen ≤ r.length)
  match runs with
  | [] => ""
  | _ => String.mk (newlineJoin runs)

/-- The attributes computed by `sam_info.__init__` (source lines 76-86).
`strand` is the `(strand, umap-is-None)` pair returned by `bit_check`. -/
structure sam_info where
  line : String
  start_pos : Int
  qual_score : Option Int
  strand : String × Bool
  BC : String
deriving Repr, DecidableEq

/-- `sam_info.__init__` (source lines 76-86): computes `start_pos`,
`qual_score`, `strand` and `BC` in order; any uncaught exception aborts
construction.  (`COUNT` is incremented inside `barcode_get`; the increment
is threaded by the caller `stepLine`.) -/
def mkSamInfo (names : List String) (count idlen : Nat) (l : String) : Except Unit sam_info :=
  match start_pos l with
  | Except.error _ => Except.error ()
  | Except.ok sp =>
    match convert_phred l with
    | Except.error _ => Except.error ()
    | Except.ok q =>
      match bit_check l with
      | Except.error _ => Except.error ()
      | Except.ok sd => Except.ok ⟨l, sp, q, sd, barcode_get names count idlen⟩

/-- The dedup key `val = (line.BC, line.start_pos, line.strand[0])`
(source line 180). -/
abbrev DKey := String × Int × String

/-- The mutable state of `rmdup.inter_sam`: `place` is the insertion-ordered
dict from keys to stored line text, `bestScore` is the single shared
best-score variable (it becomes Python `None` if a record with an empty
quality string is inserted), `count` is the global `COUNT` ordinal. -/
structure RunState where
  place : List (DKey × String)
  bestScore : Option Int
  count : Nat
deriving Repr, DecidableEq

/-- Python dict assignment `place[val] = line` for a key already present:
the entry keeps its original position in insertion order. -/
def updAssoc (pl : List (DKey × String)) (k : DKey) (v : String) : List (DKey × String) :=
  pl.map (fun kv => if kv.1 = k then (k, v) else kv)

/-- `val in place.keys()`. -/
def hasKey (pl : List (DKey × String)) (k : DKey) : Bool :=
  pl.any (fun kv => decide (kv.1 = k))

/-- Python's `a < b` on the `bestScore`/`qual_score` values: comparing
`None` with an int raises `TypeError` (modelled as `error`). -/
def pyLtOpt : Option Int → Option Int → Except Unit Bool
  | some a, some b => Except.ok (decide (a < b))
  | _, _ => Except.error ()

/-- One iteration of the loop body of `rmdup.inter_sam` (source lines
175-195) on a single line of the file.  Header lines are skipped.  For the
rest: build `sam_info` (incrementing `COUNT`), skip records whose flag is
invalid or whose barcode is empty, otherwise run the accumulator:
  * `val in place.keys() and bestScore < qual_score`: the replacement loop
    `for key in place.keys(): if key == val: place[val] = line; break`
    breaks after its first iteration, so the entry is replaced only when
    `val` is the *first* key in insertion order;
  * `val not in place.keys()`: insert and overwrite `bestScore`
    (`bestScore` is *not* updated on replacement);
  * otherwise: keep the existing entry. -/
def stepLine (names : List String) (idlen : Nat) (st : RunState) (l : String) : Except Unit RunState :=
  if startsHeader l then Except.ok st
  else
    match mkSamInfo names st.count idlen l with
    | Except.error _ => Except.error ()
    | Except.ok info =>
      if info.strand.2 = true ∨ info.BC = ("") then
        Except.ok ⟨st.place, st.bestScore, st.count + 1⟩
      else if hasKey st.place (info.BC, info.start_pos, info.strand.1) then
        match pyLtOpt st.bestScore info.qual_score with
        | Except.error _ => Except.error ()
        | Except.ok true =>
          match st.place with
          | [] => Except.ok ⟨st.place, st.bestScore, st.count + 1⟩
          | kv0 :: _ =>
            if kv0.1 = (info.BC, info.start_pos, info.strand.1) then
              Except.ok ⟨updAssoc st.place (info.BC, info.start_pos, info.strand.1) l,
                         st.bestScore, st.count + 1⟩
            else Except.ok ⟨st.place, st.bestScore, st.count + 1⟩
        | Except.ok false => Except.ok ⟨st.place, st.bestScore, st.count + 1⟩
      else
        Except.ok ⟨st.place ++ [((info.BC, info.start_pos, info.strand.1), l)],
                   info.qual_score, st.count + 1⟩

/-- The loop of `rmdup.inter_sam` over the remaining lines. -/
def runLines (names : List String) (idlen : Nat) : RunState → List String → Except Unit RunState
  | st, [] => Except.ok st
  | st, l :: ls =>
    match stepLine names idlen st l with
    | Except.error _ => Except.error ()
    | Except.ok st' => runLines names idlen st' ls

/-- Initial state: `place = {}` (main, line 258), `bestScore = 0` (line
170), `COUNT = 1` (line 255). -/
def initState : RunState :=
  ⟨[], some 0, 1⟩

/-- The name column the barcode pipeline sees: field 0 of every non-header
line of the file (`cut -f 1 | grep -v '^@'`). -/
def nonHeaderNames (lines : List String) : List String :=
  (lines.filter (fun l => startsHeader l = false)).map (fun l => ((splitTab l).get? 0).getD (""))

/-- `rmdup.inter_sam` (source lines 165-196) on the whole stream, in the
standard invocation where the file handed to the barcode pipeline is the
file being iterated. -/
def inter_sam (idlen : Nat) (lines : List String) : Except Unit RunState :=
  runLines (nonHeaderNames lines) idlen initState lines

/-- The surviving records, written out from `place.values()` in insertion
order (main, lines 267-269). -/
def output (st : RunState) : List String :=
  st.place.map (fun kv => kv.2)

/-- `(flag & 4) == 4 or (flag & 256) == 256` as a predicate of the raw
line text: true iff field 1 parses to a flag with the unmapped bit or the
secondary-alignment bit set. -/
def flagExcluded (l : String) : Bool :=
  match samField l 1 with
  | none => false
  | some fs =>
    match pyInt fs with
    | none => false
    | some flag => testBitI flag 2 || testBitI flag 8

/-- A malformed non-header record in the sense of the spec's error
taxonomy: fewer than 11 tab fields, or a non-integer flag (field 1) or
position (field 3). -/
def isMalformed (l : String) : Bool :=
  decide ((splitTab l).length < 11) ||
    (match samField l 1 with
     | none => true
     | some fs => (pyInt fs).isNone) ||
    (match samField l 3 with
     | none => true
     | some ps => (pyInt ps).isNone)

/-- The claim C7/C10 hypothesis, formalised from the claim's words: the
descriptor starts with a one- or two-digit length immediately followed by
`S`; returns that length. -/
def specLeadingClipCore : List Char → Option Nat
  | d :: c :: rest =>
    if d.isDigit ∧ c = 'S' then some (digitsToNat [d])
    else
      match rest with
      | c2 :: _ =>
        if d.isDigit ∧ c.isDigit ∧ c2 = 'S' then some (digitsToNat [d, c]) else none
      | [] => none
  | _ => none

def specLeadingClip (align : String) : Option Nat :=
  specLeadingClipCore align.data

/-! Concrete SAM lines used by the closed evaluation theorems.  Fields:
name, flag, rname, pos, mapq, cigar, rnext, pnext, tlen, seq, qual.
Quality characters: `+` is 43 (score 10), `$` is 36 (score 3), `&` is 38
(score 5). -/

/-- Eligible record: barcode `AAAAAA`, start 100, forward, quality 10. -/
def lA : String := "r1:AAAAAA\t0\tchr1\t100\t255\t20M\t*\t0\t0\tACGT\t+"

/-- Eligible record with an unrelated key: barcode `CCCCCC`, start 200,
forward, quality 3. -/
def lB : String := "r2:CCCCCC\t0\tchr1\t200\t255\t20M\t*\t0\t0\tACGT\t$"

/-- Eligible record with the same key as `lA` but quality 5. -/
def lC : String := "r3:AAAAAA\t0\tchr1\t100\t255\t20M\t*\t0\t0\tACGT\t&"

/-- Eligible record with the same key and the same quality 10 as `lA`. -/
def lD : String := "r4:AAAAAA\t0\tchr1\t100\t255\t20M\t*\t0\t0\tACGT\t+"

/-- Record with the unmapped bit (4) set in its flag. -/
def lBad : String := "r9:GGGGGG\t4\tchr1\t100\t255\t20M\t*\t0\t0\tACGT\t+"

/-- Record at position 3 with a leading 5-base soft clip: adjusted start
is 3 - 5 = -2. -/
def lNeg : String := "r1:AAAAAA\t0\tchr1\t3\t255\t5S20M\t*\t0\t0\tACGT\t+"

/-- Malformed record: only 3 tab-separated fields. -/
def lMal : String := "r1:AAAAAA\t0\tchr1"

/-- Record whose quality string is `III` (three characters of score 40). -/
def lIII : String := "r1:AAAAAA\t0\tchr1\t100\t255\t20M\t*\t0\t0\tACGT\tIII"

/-- Record whose quality string (field 10) is empty. -/
def lEmptyQ : String := "r1:AAAAAA\t0\tchr1\t100\t255\t20M\t*\t0\t0\tACGT\t\tx"

/-- Record whose CIGAR field is `5M`: first operation is not a soft clip,
but the descriptor has only 2 characters. -/
def l5M : String := "r1:AAAAAA\t0\tchr1\t100\t255\t5M\t*\t0\t0\tACGT\t+"

/-- Record whose name contains no `[ACGTN^-]` run of length 6 or more. -/
def lNoBC : String := "hi:there\t0\tchr1\t100\t255\t20M\t*\t0\t0\tACGT\t+"

/-- The name column for the two-name file used by the C4 evaluation. -/
def namesC4 : List String := [("r1:AAAAAA"), ("r2:CCCCCC")]

/-- Final state of the run `[lA, lBad]` (used by the C9 witness). -/
def stW9 : RunState := ⟨[(((("AAAAAA")), 100, (("+"))), lA)], some 10, 3⟩

/-! ### Helper lemmas -/

theorem isDigit_not_space (c : Char) (h : c.isDigit = true) : isSpaceChar c = false := by
  by_contra hc
  rw [Bool.not_eq_false] at hc
  unfold isSpaceChar at hc
  simp only [Bool.or_eq_true, beq_iff_eq] at hc
  rcases hc with ((((e | e) | e) | e) | e) | e <;> subst e <;> exact absurd h (by decide)

theorem isDigit_ne_dash (c : Char) (h : c.isDigit = true) : c ≠ '-' :=
  fun e => absurd h (by subst e; decide)

theorem isDigit_ne_plus (c : Char) (h : c.isDigit = true) : c ≠ '+' :=
  fun e => absurd h (by subst e; decide)

theorem isDigit_ne_S (c : Char) (h : c.isDigit = true) : c ≠ 'S' ∧ c ≠ 's' :=
  ⟨fun e => absurd h (by subst e; decide), fun e => absurd h (by subst e; decide)⟩

theorem dropWhile_no (p : Char → Bool) (l : List Char) (h : ∀ c ∈ l, p c = false) :
    l.dropWhile p = l := by
  cases l with
  | nil => rfl
  | cons a t => rw [List.dropWhile_cons_of_neg]; simp [h a (by simp)]

theorem pyStrip_eq (l : List Char) (h : ∀ c ∈ l, isSpaceChar c = false) : pyStrip l = l := by
  unfold pyStrip
  rw [dropWhile_no isSpaceChar l h,
      dropWhile_no isSpaceChar l.reverse (fun c hc => h c (List.mem_reverse.mp hc)),
      List.reverse_reverse]

theorem pyInt_digits (l : List Char) (h0 : l ≠ []) (h : allDigits l = true) :
    pyInt (String.mk l) = some ((digitsToNat l : Int)) := by
  have hall : ∀ c ∈ l, Char.isDigit c = true := List.all_eq_true.mp h
  have hs : pyStrip (String.mk l).data = l :=
    pyStrip_eq l (fun c hc => isDigit_not_space c (hall c hc))
  unfold pyInt
  rw [hs]
  cases l with
  | nil => exact absurd rfl h0
  | cons c cs =>
    have hcd : c.isDigit = true := hall c (by simp)
    simp only [pyIntCore]
    rw [if_neg (isDigit_ne_dash c hcd), if_neg (isDigit_ne_plus c hcd), if_pos h]

theorem soft_lead_one (d : Char) (rest : List Char) (h : d.isDigit = true) :
    soft_check (String.mk (d :: 'S' :: rest)) = some ((digitsToNat [d] : Int)) := by
  unfold soft_check
  show (if ('S' : Char) = 'S' ∨ ('S' : Char) = 's' then pyInt (String.mk [d]) else _) = _
  rw [if_pos (Or.inl rfl)]
  exact pyInt_digits [d] (by simp) (by simp [allDigits, h])

theorem soft_lead_two (d1 d2 : Char) (rest : List Char)
    (h1 : d1.isDigit = true) (h2 : d2.isDigit = true) :
    soft_check (String.mk (d1 :: d2 :: 'S' :: rest)) = some ((digitsToNat [d1, d2] : Int)) := by
  unfold soft_check
  show (if d2 = 'S' ∨ d2 = 's' then pyInt (String.mk [d1])
        else if ('S' : Char) = 'S' ∨ ('S' : Char) = 's' then pyInt (String.mk [d1, d2])
        else some 0) = _
  rw [if_neg (fun hor => hor.elim (isDigit_ne_S d2 h2).1 (isDigit_ne_S d2 h2).2),
      if_pos (Or.inl rfl)]
  exact pyInt_digits [d1, d2] (by simp) (by simp [allDigits, h1, h2])

theorem soft_no_clip (c0 c1 c2 : Char) (rest : List Char)
    (h1 : c1 ≠ 'S') (h2 : c1 ≠ 's') (h3 : c2 ≠ 'S') (h4 : c2 ≠ 's') :
    soft_check (String.mk (c0 :: c1 :: c2 :: rest)) = some 0 := by
  unfold soft_check
  show (if c1 = 'S' ∨ c1 = 's' then pyInt (String.mk [c0])
        else if c2 = 'S' ∨ c2 = 's' then pyInt (String.mk [c0, c1])
        else some 0) = _
  rw [if_neg (fun hor => hor.elim h1 h2), if_neg (fun hor => hor.elim h3 h4)]

theorem start_core_clip (p m : Int) (align : String) (hm : 0 ≤ m)
    (hs : soft_check align = some m) : start_pos_core p align = some (p - m) := by
  unfold start_pos_core
  rw [hs]
  simp only [Option.map_some']
  by_cases h0 : 0 < m
  · rw [if_pos h0]
  · rw [if_neg h0]
    have hz : m = 0 := le_antisymm (not_lt.mp h0) hm
    rw [hz, sub_zero]

theorem lead_clip_start_core (p : Int) (data : List Char) (n : Nat)
    (h : specLeadingClipCore data = some n) :
    start_pos_core p (String.mk data) = some (p - (n : Int)) := by
  match data with
  | [] => exact Option.noConfusion h
  | [d] => exact Option.noConfusion h
  | d :: c :: rest =>
    simp only [specLeadingClipCore] at h
    by_cases hd : d.isDigit = true ∧ c = 'S'
    · rw [if_pos hd] at h
      obtain ⟨hdig, rfl⟩ := hd
      injection h with hn
      subst hn
      exact start_core_clip p _ _ (Int.natCast_nonneg _) (soft_lead_one d rest hdig)
    · rw [if_neg hd] at h
      match rest with
      | [] => exact Option.noConfusion h
      | c2 :: t3 =>
        have h2 : (if d.isDigit = true ∧ c.isDigit = true ∧ c2 = 'S'
            then some (digitsToNat [d, c]) else none) = some n := h
        by_cases hd2 : d.isDigit = true ∧ c.isDigit = true ∧ c2 = 'S'
        · rw [if_pos hd2] at h2
          obtain ⟨hdig1, hdig2, rfl⟩ := hd2
          injection h2 with hn
          subst hn
          exact start_core_clip p _ _ (Int.natCast_nonneg _) (soft_lead_two d c t3 hdig1 hdig2)
        · rw [if_neg hd2] at h2
          exact Option.noConfusion h2

theorem lead_clip_start (p : Int) (align : String) (n : Nat)
    (h : specLeadingClip align = some n) :
    start_pos_core p align = some (p - (n : Int)) := by
  obtain ⟨data⟩ := align
  exact lead_clip_start_core p data n h

theorem samField_some_lt (l : String) (i : Nat) (s : String) (h : samField l i = some s) :
    i < (splitTab l).length := by
  unfold samField at h
  exact (List.get?_eq_some.mp h).1

theorem bit_check_flagExcluded (l : String) (sd : String × Bool)
    (h : bit_check l = Except.ok sd) : sd.2 = flagExcluded l := by
  unfold bit_check at h
  cases hf : samField l 1 with
  | none => rw [hf] at h; exact Except.noConfusion h
  | some fs =>
    simp only [hf] at h
    cases hp : pyInt fs with
    | none => rw [hp] at h; exact Except.noConfusion h
    | some flag =>
      simp only [hp] at h
      injection h with he
      subst he
      unfold flagExcluded
      simp only [hf, hp]

theorem start_pos_ok_inv (l : String) (v : Int) (h : start_pos l = Except.ok v) :
    ∃ ps, samField l 3 = some ps ∧ ∃ p, pyInt ps = some p := by
  unfold start_pos at h
  cases hf : samField l 3 with
  | none => rw [hf] at h; exact Except.noConfusion h
  | some ps =>
    simp only [hf] at h
    cases hp : pyInt ps with
    | none => rw [hp] at h; exact Except.noConfusion h
    | some p => exact ⟨ps, rfl, p, hp⟩

theorem convert_phred_ok_inv (l : String) (q : Option Int)
    (h : convert_phred l = Except.ok q) : 10 < (splitTab l).length := by
  unfold convert_phred at h
  cases hf : samField l 10 with
  | none => rw [hf] at h; exact Except.noConfusion h
  | some s => exact samField_some_lt l 10 s hf

theorem bit_check_ok_inv (l : String) (sd : String × Bool) (h : bit_check l = Except.ok sd) :
    ∃ fs, samField l 1 = some fs ∧ ∃ f, pyInt fs = some f := by
  unfold bit_check at h
  cases hf : samField l 1 with
  | none => rw [hf] at h; exact Except.noConfusion h
  | some fs =>
    simp only [hf] at h
    cases hp : pyInt fs with
    | none => rw [hp] at h; exact Except.noConfusion h
    | some flag => exact ⟨fs, rfl, flag, hp⟩

theorem mkSamInfo_ok_inv (names : List String) (cnt idlen : Nat) (l : String)
    (info : sam_info) (h : mkSamInfo names cnt idlen l = Except.ok info) :
    ∃ sp q sd, start_pos l = Except.ok sp ∧ convert_phred l = Except.ok q ∧
      bit_check l = Except.ok sd ∧
      info = ⟨l, sp, q, sd, barcode_get names cnt idlen⟩ := by
  unfold mkSamInfo at h
  cases hsp : start_pos l with
  | error e => rw [hsp] at h; exact Except.noConfusion h
  | ok sp =>
    simp only [hsp] at h
    cases hq : convert_phred l with
    | error e => rw [hq] at h; exact Except.noConfusion h
    | ok q =>
      simp only [hq] at h
      cases hb : bit_check l with
      | error e => rw [hb] at h; exact Except.noConfusion h
      | ok sd =>
        simp only [hb] at h
        injection h with he
        exact ⟨sp, q, sd, rfl, rfl, rfl, he.symm⟩

theorem mkSamInfo_ok_line_umap (names : List String) (cnt idlen : Nat) (l : String)
    (info : sam_info) (h : mkSamInfo names cnt idlen l = Except.ok info) :
    info.line = l ∧ info.strand.2 = flagExcluded l := by
  obtain ⟨sp, q, sd, hsp, hq, hb, hinfo⟩ := mkSamInfo_ok_inv names cnt idlen l info h
  subst hinfo
  exact ⟨rfl, bit_check_flagExcluded l sd hb⟩

theorem mkSamInfo_ok_wf (names : List String) (cnt idlen : Nat) (l : String)
    (info : sam_info) (h : mkSamInfo names cnt idlen l = Except.ok info) :
    isMalformed l = false := by
  obtain ⟨sp, q, sd, hsp, hq, hb, _⟩ := mkSamInfo_ok_inv names cnt idlen l info h
  obtain ⟨ps, hf3, p, hp3⟩ := start_pos_ok_inv l sp hsp
  have hlen := convert_phred_ok_inv l q hq
  obtain ⟨fs, hf1, f, hp1⟩ := bit_check_ok_inv l sd hb
  have hnlt : ¬ ((splitTab l).length < 11) := by omega
  unfold isMalformed
  simp [hf1, hf3, hp1, hp3, hnlt]

theorem mem_updAssoc (pl : List (DKey × String)) (k : DKey) (v : String)
    (kv : DKey × String) (h : kv ∈ updAssoc pl k v) : kv.2 = v ∨ kv ∈ pl := by
  unfold updAssoc at h
  obtain ⟨kv0, hmem, heq⟩ := List.mem_map.mp h
  by_cases hc : kv0.1 = k
  · rw [if_pos hc] at heq
    left; rw [← heq]
  · rw [if_neg hc] at heq
    right; rw [← heq]; exact hmem

theorem stepLine_good (names : List String) (idlen : Nat) (st st' : RunState) (l : String)
    (h : stepLine names idlen st l = Except.ok st')
    (hg : ∀ kv ∈ st.place, flagExcluded kv.2 = false) :
    ∀ kv ∈ st'.place, flagExcluded kv.2 = false := by
  unfold stepLine at h
  by_cases hh : startsHeader l = true
  · rw [if_pos hh] at h
    injection h with he
    subst he
    exact hg
  · rw [if_neg hh] at h
    cases hmk : mkSamInfo names st.count idlen l with
    | error e => rw [hmk] at h; exact Except.noConfusion h
    | ok info =>
      simp only [hmk] at h
      obtain ⟨hline, hum⟩ := mkSamInfo_ok_line_umap names st.count idlen l info hmk
      by_cases hskip : info.strand.2 = true ∨ info.BC = ("")
      · rw [if_pos hskip] at h
        injection h with he
        subst he
        exact hg
      · rw [if_neg hskip] at h
        have hexl : flagExcluded l = false := by
          rcases Bool.eq_false_or_eq_true info.strand.2 with hb | hb
          · exact absurd (Or.inl hb) hskip
          · rw [← hum]; exact hb
        by_cases hk : hasKey st.place (info.BC, info.start_pos, info.strand.1) = true
        · rw [if_pos hk] at h
          cases hlt : pyLtOpt st.bestScore info.qual_score with
          | error e => rw [hlt] at h; exact Except.noConfusion h
          | ok b =>
            simp only [hlt] at h
            cases b with
            | false =>
              injection h with he
              subst he
              exact hg
            | true =>
              cases hpl : st.place with
              | nil =>
                simp only [hpl] at h
                injection h with he
                subst he
                exact fun kv hkv => absurd hkv (List.not_mem_nil kv)
              | cons kv0 tl =>
                simp only [hpl] at h
                have hg2 : ∀ kv ∈ kv0 :: tl, flagExcluded kv.2 = false := hpl ▸ hg
                by_cases hc : kv0.1 = (info.BC, info.start_pos, info.strand.1)
                · rw [if_pos hc] at h
                  injection h with he
                  subst he
                  intro kv hkv
                  rcases mem_updAssoc (kv0 :: tl) _ l kv hkv with hv | hold
                  · rw [hv]; exact hexl
                  · exact hg2 kv hold
                · rw [if_neg hc] at h
                  injection h with he
                  subst he
                  exact fun kv hkv => hg2 kv hkv
        · rw [if_neg hk] at h
          injection h with he
          subst he
          intro kv hkv
          rcases List.mem_append.mp hkv with hold | hnew
          · exact hg kv hold
          · rw [List.mem_singleton.mp hnew]
            exact hexl

theorem runLines_good (names : List String) (idlen : Nat) :
    ∀ (ls : List String) (st st' : RunState),
      runLines names idlen st ls = Except.ok st' →
      (∀ kv ∈ st.place, flagExcluded kv.2 = false) →
      ∀ kv ∈ st'.place, flagExcluded kv.2 = false := by
  intro ls
  induction ls with
  | nil =>
    intro st st' h hg
    unfold runLines at h
    injection h with he
    subst he
    exact hg
  | cons l ls ih =>
    intro st st' h hg
    unfold runLines at h
    cases hs : stepLine names idlen st l with
    | error e => rw [hs] at h; exact Except.noConfusion h
    | ok st1 =>
      simp only [hs] at h
      exact ih st1 st' h (stepLine_good names idlen st st1 l hs hg)

/-! ### Claim theorems -/

/-- Claim C1 (code bug evaluation): `convert_phred` sums only the first
quality character because the `return` is inside the loop.  For the
quality string `III` it yields 40, not the full-string sum 120 that the
claim (and the function's own docstring) describe; for an empty quality
string it yields Python `None`, not 0. -/
theorem C1_convert_phred_first_char_only :
    convert_phred lIII = Except.ok (some 40) ∧ convert_phred lEmptyQ = Except.ok none ∧
      sumPhred ("III") = 120 :=
  ⟨rfl, rfl, rfl⟩

/-- Claim C2 (code bug evaluation): the stored line is not always one of
maximum quality for its key.  In the stream `[lA, lB, lC]`, `lA` has key
(`AAAAAA`, 100, +) and quality 10, `lB` inserts an unrelated key and
overwrites the shared `bestScore` with 3, and then `lC` (same key as
`lA`, quality 5) replaces `lA` because 3 < 5.  The survivor for the key
has quality 5 even though quality 10 was seen. -/
theorem C2_best_score_not_per_key :
    inter_sam 6 [lA, lB, lC] =
      Except.ok ⟨[(((("AAAAAA")), 100, ("+")), lC), (((("CCCCCC")), 200, ("+")), lB)],
                 some 3, 4⟩ ∧
    convert_phred lA = Except.ok (some 10) ∧ convert_phred lC = Except.ok (some 5) :=
  ⟨rfl, rfl, rfl⟩

/-- Claim C3 (code bug evaluation): first-seen does not always win on
quality ties.  In the stream `[lA, lB, lD]`, `lA` and `lD` share the key
(`AAAAAA`, 100, +) and the quality 10; after `lB` lowers the shared
`bestScore` to 3, `lD` replaces `lA` (3 < 10), so the *last* tied record
survives, not the first. -/
theorem C3_tie_break_first_seen_violated :
    inter_sam 6 [lA, lB, lD] =
      Except.ok ⟨[(((("AAAAAA")), 100, ("+")), lD), (((("CCCCCC")), 200, ("+")), lB)],
                 some 3, 4⟩ ∧
    convert_phred lA = Except.ok (some 10) ∧ convert_phred lD = Except.ok (some 10) ∧
      lA ≠ lD :=
  ⟨rfl, rfl, rfl, by decide⟩

/-- Claim C4 (code bug evaluation): classification is not idempotent
within a run.  `barcode_get` reads the name at the *global ordinal*
`COUNT`, not the name of the line being classified, so classifying the
very same raw line `lA` at ordinal 1 and at ordinal 2 of a two-record
file yields different `molecule_id` values. -/
theorem C4_molecule_id_depends_on_ordinal :
    (mkSamInfo namesC4 1 6 lA).map sam_info.BC = Except.ok ("AAAAAA") ∧
    (mkSamInfo namesC4 2 6 lA).map sam_info.BC = Except.ok ("CCCCCC") :=
  ⟨rfl, rfl⟩

/-- Claim C5 counterexample: a malformed non-header line (here: 3 tab
fields) is *not* skipped — the run aborts with an uncaught exception,
contradicting the claim that such a line never aborts the run. -/
theorem C5_malformed_line_aborts_run :
    inter_sam 6 [lMal] = Except.error () ∧ startsHeader lMal = false ∧
      isMalformed lMal = true :=
  ⟨rfl, rfl, rfl⟩

/-- Claim C5 as amended: processing a malformed non-header line (fewer
than 11 tab fields, or a non-integer flag or position field) raises an
uncaught exception, aborting the run at that line; it is never processed
successfully. -/
theorem C5_malformed_never_processed (names : List String) (idlen : Nat) (st : RunState)
    (l : String) (hh : startsHeader l = false) (hm : isMalformed l = true) :
    stepLine names idlen st l = Except.error () := by
  unfold stepLine
  have hcond : ¬ (startsHeader l = true) := by rw [hh]; exact Bool.false_ne_true
  rw [if_neg hcond]
  cases hmk : mkSamInfo names st.count idlen l with
  | error e => simp only [hmk]
  | ok info =>
    have hwf := mkSamInfo_ok_wf names st.count idlen l info hmk
    rw [hm] at hwf
    exact Bool.noConfusion hwf

/-- Witness for the amended C5 theorem at the concrete malformed line. -/
theorem C5_malformed_never_processed_witness :
    stepLine [] 6 initState lMal = Except.error () :=
  C5_malformed_never_processed [] 6 initState lMal (by rfl) (by rfl)

/-- Claim C6 counterexample: the soft-clip resolver is *not* total.  On
the descriptors `*` and `M` (length 1) and `5M` (length 2 with no
soft-clip code at position 1) it raises an `IndexError` instead of
returning 0. -/
theorem C6_resolver_raises_on_short_descriptor :
    soft_check ("*") = none ∧ soft_check ("M") = none ∧ soft_check ("5M") = none :=
  ⟨rfl, rfl, rfl⟩

/-- Claim C6 as amended: for descriptors of length at least 3 whose
characters at positions 1 and 2 are not `S`/`s`, the resolver returns 0
without raising; descriptors shorter than that (such as `*` or `M`)
raise an `IndexError` instead of degrading to 0. -/
theorem C6_no_clip_yields_zero (c0 c1 c2 : Char) (rest : List Char)
    (h1 : c1 ≠ 'S') (h2 : c1 ≠ 's') (h3 : c2 ≠ 'S') (h4 : c2 ≠ 's') :
    soft_check (String.mk (c0 :: c1 :: c2 :: rest)) = some 0 :=
  soft_no_clip c0 c1 c2 rest h1 h2 h3 h4

/-- Witness for the amended C6 theorem at the descriptor `20M5S`. -/
theorem C6_no_clip_yields_zero_witness :
    soft_check (String.mk ['2', '0', 'M', '5', 'S']) = some 0 :=
  C6_no_clip_yields_zero '2' '0' 'M' ['5', 'S'] (by decide) (by decide) (by decide)
    (by decide)

/-- Claim C7 counterexample: a descriptor whose first operation is not a
soft clip does *not* always leave the start position unchanged — on the
two-character descriptor `5M` the resolver raises, so `start_pos` aborts
instead of returning the reference position 100. -/
theorem C7_nonclip_length_two_raises :
    start_pos_core 100 ("5M") = none ∧ start_pos l5M = Except.error () :=
  ⟨rfl, rfl⟩

/-- Claim C7 as amended: a leading one- or two-digit soft clip of length
`n` gives `adjusted_start = position - n`; a descriptor of length at
least 3 with no `S`/`s` at positions 1 and 2 (first operation not a soft
clip) leaves the position unchanged; but a length-2 non-clip descriptor
such as `5M` raises instead (see the counterexample). -/
theorem C7_leading_clip_adjustment :
    (∀ (p : Int) (align : String) (n : Nat),
        specLeadingClip align = some n → start_pos_core p align = some (p - (n : Int))) ∧
    (∀ (p : Int) (c0 c1 c2 : Char) (rest : List Char),
        c1 ≠ 'S' → c1 ≠ 's' → c2 ≠ 'S' → c2 ≠ 's' →
        start_pos_core p (String.mk (c0 :: c1 :: c2 :: rest)) = some p) := by
  constructor
  · exact fun p align n h => lead_clip_start p align n h
  · intro p c0 c1 c2 rest h1 h2 h3 h4
    unfold start_pos_core
    rw [soft_no_clip c0 c1 c2 rest h1 h2 h3 h4]
    simp

/-- Witness for the amended C7 theorem: position 100 with `5S20M` gives
95, and with `20M5S` gives 100. -/
theorem C7_leading_clip_adjustment_witness :
    start_pos_core 100 ("5S20M") = some 95 ∧ start_pos_core 100 ("20M5S") = some 100 := by
  constructor
  · have h := C7_leading_clip_adjustment.1 100 ("5S20M") 5 (by rfl)
    simpa using h
  · exact C7_leading_clip_adjustment.2 100 '2' '0' 'M' ['5', 'S'] (by decide) (by decide)
      (by decide) (by decide)

/-- Claim C8 counterexample: when the name contains no qualifying run,
the extractor returns the *empty string*, not a distinguished absent
value distinct from the empty string. -/
theorem C8_absent_id_is_empty_string :
    barcode_get [("hi:there")] 1 6 = ("") :=
  rfl

/-- Claim C8 as amended: when the name at the current ordinal contains no
`[ACGTN^-]` run of length at least `idlen`, the extractor returns the
empty string, and the accumulator treats the empty string as the absent
marker: a classified record with empty `BC` is skipped and the table is
left unchanged. -/
theorem C8_empty_string_marks_absent :
    (∀ (names : List String) (count idlen : Nat),
        (bcRuns ((names.get? (count - 1)).getD ("")).data).filter
            (fun r => idlen ≤ r.length) = [] →
        barcode_get names count idlen = ("")) ∧
    (∀ (names : List String) (idlen : Nat) (st : RunState) (l : String) (info : sam_info),
        startsHeader l = false → mkSamInfo names st.count idlen l = Except.ok info →
        info.BC = ("") →
        stepLine names idlen st l = Except.ok ⟨st.place, st.bestScore, st.count + 1⟩) := by
  constructor
  · intro names count idlen h
    simp only [barcode_get]
    rw [h]
  · intro names idlen st l info hh hmk hbc
    unfold stepLine
    have hcond : ¬ (startsHeader l = true) := by rw [hh]; exact Bool.false_ne_true
    rw [if_neg hcond]
    simp only [hmk]
    rw [if_pos (Or.inr hbc)]

/-- Witness for the amended C8 theorem at a name with no qualifying run
and at a concrete no-barcode record. -/
theorem C8_empty_string_marks_absent_witness :
    barcode_get [("x:y")] 1 6 = ("") ∧
    stepLine [] 6 initState lNoBC = Except.ok ⟨[], some 0, 2⟩ := by
  constructor
  · exact C8_empty_string_marks_absent.1 [("x:y")] 1 6 (by rfl)
  · exact C8_empty_string_marks_absent.2 [] 6 initState lNoBC
      ⟨lNoBC, 100, some 10, (("+"), false), ("")⟩ (by rfl) (by rfl) (by rfl)

/-- Claim C9 (confirmed): a record whose flag has the unmapped bit (4) or
secondary-alignment bit (256) set is never inserted into the dedup table
and never appears in the output, for every input stream (and hence after
every prefix of a stream, a prefix being itself a stream). -/
theorem C9_excluded_flag_never_in_output (idlen : Nat) (lines : List String)
    (st : RunState) (h : inter_sam idlen lines = Except.ok st) (l : String)
    (hex : flagExcluded l = true) :
    (∀ k : DKey, (k, l) ∉ st.place) ∧ l ∉ output st := by
  have hgood : ∀ kv ∈ st.place, flagExcluded kv.2 = false :=
    runLines_good (nonHeaderNames lines) idlen lines initState st h
      (fun kv hkv => absurd hkv (List.not_mem_nil kv))
  constructor
  · intro k hk
    have hfe := hgood (k, l) hk
    rw [hex] at hfe
    exact Bool.noConfusion hfe
  · intro hl
    obtain ⟨kv, hkv, he⟩ := List.mem_map.mp hl
    have hfe : flagExcluded l = false := he ▸ hgood kv hkv
    rw [hex] at hfe
    exact Bool.noConfusion hfe

/-- Witness for C9 at the concrete stream `[lA, lBad]`: the unmapped
record `lBad` is absent from the final table and output. -/
theorem C9_excluded_flag_never_in_output_witness :
    (∀ k : DKey, (k, lBad) ∉ stW9.place) ∧ lBad ∉ output stW9 :=
  C9_excluded_flag_never_in_output 6 [lA, lBad] stW9 (by rfl) lBad (by rfl)

/-- Claim C10 (confirmed): `adjusted_start` has no lower clamp — a
leading clip of length `n ≥ p` yields the non-positive value `p - n`,
and such a record still participates in key construction: the concrete
record `lNeg` (position 3, CIGAR `5S20M`) is stored in the table under
the key (`AAAAAA`, -2, +). -/
theorem C10_adjusted_start_unclamped :
    (∀ (p : Int) (align : String) (n : Nat),
        specLeadingClip align = some n → p ≤ (n : Int) →
        start_pos_core p align = some (p - (n : Int)) ∧ p - (n : Int) ≤ 0) ∧
    inter_sam 6 [lNeg] =
      Except.ok ⟨[(((("AAAAAA")), -2, ("+")), lNeg)], some 10, 2⟩ := by
  constructor
  · intro p align n h hle
    exact ⟨lead_clip_start p align n h, by omega⟩
  · rfl

/-- Witness for the universally quantified part of C10 at position 3 with
descriptor `5S20M`. -/
theorem C10_adjusted_start_unclamped_witness :
    start_pos_core 3 ("5S20M") = some (3 - ((5 : Nat) : Int)) ∧
      3 - ((5 : Nat) : Int) ≤ 0 :=
  C10_adjusted_start_unclamped.1 3 ("5S20M") 5 (by rfl) (by decide)

end DupRemover
